import Mathlib

/-!
Verification of the Zone Mapping & Live-Overlay subsystem and the dashboard
reconciliation layer of the fast_api-podman frontend.

The embedding mirrors the TypeScript source:
* `ZoneMappingModal` (zone editor state machine, coordinate conversion,
  load/save normalization, per-zone clear, clear-all),
* `KPICards` (non-regression merge of fetched stats),
* `PlatformGrid` (non-regression merge of realtime stats, conservative
  zone-count display),
* the frontend permission module (`hasPagePermission`).

JavaScript objects with string keys are modelled as association lists in
insertion order (`List (String × α)`): assigning to an existing key updates
it in place, assigning to a fresh key appends it, matching the JS key
enumeration order that the normalization code relies on.
-/

/-- Lookup of a key in a JS-style object modelled as an association list
(first occurrence wins, as JS objects have unique keys). -/
def lookupKey {α : Type} (zs : List (String × α)) (k : String) : Option α :=
  (zs.find? (fun e => e.1 = k)).map Prod.snd

/-- JS-style assignment `obj[k] = v`: update in place if the key exists
(keeping its position), otherwise append, matching JS key insertion order. -/
def setKey {α : Type} (zs : List (String × α)) (k : String) (v : α) :
    List (String × α) :=
  if zs.any (fun e => e.1 = k) then
    zs.map (fun e => if e.1 = k then (k, v) else e)
  else
    zs ++ [(k, v)]

/-- The key list (`Object.keys`) of a JS-style object. -/
def keysOf {α : Type} (zs : List (String × α)) : List String :=
  zs.map Prod.fst

/-- A point in the canonical 1020×600 coordinate space (interface `Point`
in ZoneMappingModal: integer canonical coordinates produced by
`Math.round`). -/
structure Pt where
  x : ℤ
  y : ℤ
deriving DecidableEq, Repr

/-- A fully drawn zone: exactly two canonical points (`[Point, Point]`). -/
abbrev Seg := Pt × Pt

/-- `type Zones = Record<string, [Point, Point] | null>` — a JS object
mapping zone names to a segment or `null`. -/
abbrev Zones := List (String × Option Seg)

/-- `const FIXED_ZONE_NAMES = ['A', 'B', 'C']`. -/
def FIXED_ZONE_NAMES : List String := ["A", "B", "C"]

/-- The bounding client rect of the canvas (`getBoundingClientRect()`),
with rational coordinates standing for the JS numbers. -/
structure Rect where
  left : ℚ
  top : ℚ
  width : ℚ
  height : ℚ
deriving DecidableEq, Repr

/-- `const x = Math.round(((e.clientX - rect.left) / rect.width) * 1020)`
(ZoneMappingModal.handleCanvasClick). -/
def toCanonicalX (rect : Rect) (clientX : ℚ) : ℤ :=
  round ((clientX - rect.left) / rect.width * 1020)

/-- `const y = Math.round(((e.clientY - rect.top) / rect.height) * 600)`
(ZoneMappingModal.handleCanvasClick). -/
def toCanonicalY (rect : Rect) (clientY : ℚ) : ℤ :=
  round ((clientY - rect.top) / rect.height * 600)

/-- Modelled from the spec: the inverse linear projection of a canonical
x-coordinate to screen coordinates at a given canvas rect
(`screenX = rect.left + x/1020 * rect.width`); the source renders zones on a
1020×600 canvas that CSS scales, so only this inverse direction is implied. -/
def toScreenX (rect : Rect) (x : ℤ) : ℚ :=
  rect.left + (x : ℚ) / 1020 * rect.width

/-- Modelled from the spec: the inverse linear projection of a canonical
y-coordinate to screen coordinates (`screenY = rect.top + y/600 * rect.height`). -/
def toScreenY (rect : Rect) (y : ℤ) : ℚ :=
  rect.top + (y : ℚ) / 600 * rect.height

/-- The editor's mutable state: `zones`, `currentZone`, `tempPoints`
(ZoneMappingModal useState hooks). -/
structure EditorState where
  zones : Zones
  currentZone : Option String
  tempPoints : List Pt
deriving DecidableEq, Repr

/-- Initial editor state: `useState<Zones>({})`, `useState<string | null>(null)`,
`useState<Point[]>([])`. -/
def initialEditorState : EditorState :=
  { zones := [], currentZone := none, tempPoints := [] }

/-- `handleCanvasClick`: guarded by `!canEditZones || !currentZone ||
tempPoints.length >= 2`, then by rect availability; converts the client
coordinates to canonical space, appends the point, and on reaching exactly
2 points commits the segment into `zones` without clearing `tempPoints`. -/
def handleCanvasClick (canEdit : Bool) (rect : Option Rect)
    (clientX clientY : ℚ) (st : EditorState) : EditorState :=
  if !canEdit || st.currentZone.isNone || st.tempPoints.length ≥ 2 then st
  else
    match rect with
    | none => st
    | some r =>
      let p : Pt := ⟨toCanonicalX r clientX, toCanonicalY r clientY⟩
      let newPoints := st.tempPoints ++ [p]
      let st' := { st with tempPoints := newPoints }
      match st.currentZone, newPoints with
      | some z, [a, b] => { st' with zones := setKey st'.zones z (some (a, b)) }
      | _, _ => st'

/-- The zone select button's `onClick`:
`if (!canEditZones) return; setCurrentZone(z); setTempPoints([]);`. -/
def selectZone (canEdit : Bool) (z : String) (st : EditorState) : EditorState :=
  if canEdit then { st with currentZone := some z, tempPoints := [] } else st

/-- The serialized payload POSTed to `/set_zones/{platform}`:
a JS object of `{name: {p1: [x,y], p2: [x,y]}}` entries, modelled as an
association list of defined segments. -/
abbrev SavePayload := List (String × Seg)

/-- Serialization shared by `handleSave`, the per-zone clear handler and
`clearAll`: for each fixed zone name, include it iff `zones[z]` is truthy
(present and not `null`). -/
def serializeZones (zs : Zones) : SavePayload :=
  FIXED_ZONE_NAMES.filterMap (fun z =>
    match lookupKey zs z with
    | some (some seg) => some (z, seg)
    | _ => none)

/-- The per-zone Trash2 clear handler: after `stopPropagation` (so the
surrounding select button does not fire), guarded by `canEditZones` and a
`confirm` dialog; sets `copy[z] = null`, stores it, and immediately POSTs the
serialization of the updated zones. Returns the new state and the POSTed
payload (`none` when nothing was sent). -/
def clearZoneOp (canEdit confirmed : Bool) (z : String) (st : EditorState) :
    EditorState × Option SavePayload :=
  if !canEdit then (st, none)
  else if !confirmed then (st, none)
  else
    let copy := setKey st.zones z none
    ({ st with zones := copy }, some (serializeZones copy))

/-- `clearAll`: guarded by a `confirm` dialog; sets every fixed slot to
`null`, clears `tempPoints` and `currentZone`, and POSTs `{}`. -/
def clearAllOp (confirmed : Bool) (st : EditorState) :
    EditorState × Option SavePayload :=
  if !confirmed then (st, none)
  else
    ({ zones := FIXED_ZONE_NAMES.map (fun n => (n, none)),
       currentZone := none, tempPoints := [] }, some [])

/-- A JS value found at `p1`/`p2` in a remote zone entry: either an array of
numbers or some non-array value. -/
inductive RVal where
  | arr (l : List ℤ)
  | nonarr
deriving DecidableEq, Repr

/-- A remote zone entry value from `GET /get_zones/{platform}`: either a
truthy destructurable object carrying optional `p1`/`p2` fields, or a falsy
value (`null`, `undefined`, `0`, `''`, …). -/
inductive RZone where
  | obj (p1 p2 : Option RVal)
  | falsy
deriving DecidableEq, Repr

/-- JS truthiness of a remote zone entry (`if (zonesRes.data[name])`). -/
def RZone.truthy : RZone → Bool
  | .obj _ _ => true
  | .falsy => false

/-- The remote payload: a JS object in key order. -/
abbrev RPayload := List (String × RZone)

/-- Decode one remote entry the way both normalization loops do:
`Array.isArray(p1) && Array.isArray(p2) && p1.length === 2 && p2.length === 2`
yields a segment, everything else (bad shape, missing field, falsy or
non-destructurable value, which the fallback loop turns into `null` via its
`catch`) yields `none`. -/
def decodeRZone : RZone → Option Seg
  | .obj (some (.arr [a, b])) (some (.arr [c, d])) => some (⟨a, b⟩, ⟨c, d⟩)
  | _ => none

/-- Phase 1 of `loadInitialData` normalization: for each fixed zone name in
order, if the payload has a truthy exact-name match, decode it into that
slot (bad shapes become `null`); falsy or absent entries leave the slot
unassigned. -/
def loadPhase1 (payload : RPayload) : Zones :=
  FIXED_ZONE_NAMES.foldl (fun acc name =>
    match lookupKey payload name with
    | some v => if v.truthy then setKey acc name (decodeRZone v) else acc
    | none => acc) []

/-- The `while` loop advancing `fillIndex` past fixed slots already assigned
(`loadedZones[FIXED_ZONE_NAMES[fillIndex]] !== undefined`), written with an
explicit iteration bound: the loop runs at most
`FIXED_ZONE_NAMES.length - fi` times since `fillIndex` grows by one per
iteration and the loop stops at `FIXED_ZONE_NAMES.length`. -/
def advanceFillAux (acc : Zones) : ℕ → ℕ → ℕ
  | 0, fi => fi
  | fuel + 1, fi =>
    if h : fi < FIXED_ZONE_NAMES.length then
      if (lookupKey acc (FIXED_ZONE_NAMES.get ⟨fi, h⟩)).isSome then
        advanceFillAux acc fuel (fi + 1)
      else fi
    else fi

/-- The `fillIndex`-advancing `while` loop of `loadInitialData`'s phase 2. -/
def advanceFill (acc : Zones) (fi : ℕ) : ℕ :=
  advanceFillAux acc (FIXED_ZONE_NAMES.length - fi) fi

/-- One iteration of the phase-2 fallback loop over a backend key: fixed
names are skipped (`continue`), otherwise the key's value fills the first
still-unassigned fixed slot (decoding failures and the `catch` branch both
store `null`); once every slot is taken the loop effectively stops. -/
def loadPhase2Step (s : Zones × ℕ) (e : String × RZone) : Zones × ℕ :=
  if e.1 ∈ FIXED_ZONE_NAMES then s
  else
    let fi := advanceFill s.1 s.2
    if h : fi < FIXED_ZONE_NAMES.length then
      (setKey s.1 (FIXED_ZONE_NAMES.get ⟨fi, h⟩) (decodeRZone e.2), fi + 1)
    else s

/-- Phase 2 of `loadInitialData`: consume unmatched backend keys in encounter
order to fill unassigned fixed slots. -/
def loadPhase2 (payload : RPayload) (acc : Zones) : Zones :=
  (payload.foldl loadPhase2Step (acc, 0)).1

/-- Phase 3 of `loadInitialData`: ensure all fixed names exist
(`if (!(n in loadedZones)) loadedZones[n] = null`). -/
def loadPhase3 (acc : Zones) : Zones :=
  FIXED_ZONE_NAMES.foldl (fun a n =>
    if (lookupKey a n).isSome then a else setKey a n none) acc

/-- `loadInitialData`'s full normalization of a remote payload into the
fixed-slot `Zones` object. -/
def loadZones (payload : RPayload) : Zones :=
  loadPhase3 (loadPhase2 payload (loadPhase1 payload))

/-- The effect of `loadInitialData` on the editor state: on success the
normalized zones are stored; on a network error the `catch` only logs, so
the state (initially the empty object) is left unchanged. -/
def loadResult (st : EditorState) (response : Option RPayload) : EditorState :=
  match response with
  | some payload => { st with zones := loadZones payload }
  | none => st

/-- The reload normalization inside `handleSave`/`clearAll`: every fixed name
is assigned, from a truthy exact-name match when it decodes, `null`
otherwise (no fallback fill in this path). -/
def reloadZones (payload : RPayload) : Zones :=
  FIXED_ZONE_NAMES.foldl (fun acc name =>
    match lookupKey payload name with
    | some v => if v.truthy then setKey acc name (decodeRZone v) else setKey acc name none
    | none => setKey acc name none) []

/-- `handleSave`: POSTs the serialization of the current zones, then on
success re-fetches and normalizes the server's zones (here `response`);
on failure the state is unchanged. `tempPoints` and `currentZone` are not
touched in either case. Returns the new state and the POSTed payload. -/
def handleSaveOp (st : EditorState) (response : Option RPayload) :
    EditorState × SavePayload :=
  match response with
  | some payload => ({ st with zones := reloadZones payload }, serializeZones st.zones)
  | none => (st, serializeZones st.zones)

/-- One user-level editor operation, with the environment data each handler
reads (permission flag, confirm-dialog outcome, canvas rect, server
response). -/
inductive EditorOp where
  | select (canEdit : Bool) (z : String)
  | click (canEdit : Bool) (rect : Option Rect) (clientX clientY : ℚ)
  | clearZone (canEdit confirmed : Bool) (z : String)
  | clearAll (confirmed : Bool)
  | save (response : Option RPayload)
  | load (response : Option RPayload)

/-- The state transition of a single editor operation. -/
def stepOp (st : EditorState) (op : EditorOp) : EditorState :=
  match op with
  | .select canEdit z => selectZone canEdit z st
  | .click canEdit rect cx cy => handleCanvasClick canEdit rect cx cy st
  | .clearZone canEdit confirmed z => (clearZoneOp canEdit confirmed z st).1
  | .clearAll confirmed => (clearAllOp confirmed st).1
  | .save response => (handleSaveOp st response).1
  | .load response => loadResult st response

/-- Run a sequence of editor operations from a starting state. -/
def runOps (st : EditorState) (ops : List EditorOp) : EditorState :=
  ops.foldl stepOp st

/-- `role` of a user: `'admin' | 'viewer'`. -/
inductive Role where
  | admin
  | viewer
deriving DecidableEq, Repr

/-- The user shape consumed by the permission module: a `role` and an
optional `page_permissions` string array. -/
structure AuthUser where
  role : Role
  page_permissions : List String
deriving DecidableEq, Repr

/-- `AVAILABLE_PAGES` keys from the frontend permission module. -/
def AVAILABLE_PAGE_KEYS : List String :=
  ["dashboard", "reports", "api_docs", "audit", "cameras", "registrations", "users"]

/-- `normalizeUserPermissions`: `null` stays `null`; otherwise the
permissions are filtered to known page keys. -/
def normalizeUserPermissions (user : Option AuthUser) : Option AuthUser :=
  match user with
  | none => none
  | some u =>
    some { u with page_permissions :=
      u.page_permissions.filter (fun p => p ∈ AVAILABLE_PAGE_KEYS) }

/-- `hasPagePermission`: admins always pass; viewers need the page in their
filtered permission list; a missing user yields `false`. -/
def hasPagePermission (user : Option AuthUser) (page : String) : Bool :=
  match normalizeUserPermissions user with
  | none => false
  | some u => if u.role = .admin then true else page ∈ u.page_permissions

/-- `const canEditZones = hasPagePermission(user, 'cameras')`
(ZoneMappingModal). -/
def canEditZones (user : Option AuthUser) : Bool :=
  hasPagePermission user "cameras"

/-- The KPI cards state `{loaded, unloaded, balance}` (KPICards useState). -/
structure KpiStats where
  loaded : ℤ
  unloaded : ℤ
  balance : ℤ
deriving DecidableEq, Repr

/-- Initial KPI state: `{ loaded: 0, unloaded: 0, balance: 0 }`. -/
def initialKpiStats : KpiStats := ⟨0, 0, 0⟩

/-- The totals summed from the chart buckets in `fetchStats`
(`loaded`, `unloaded`). -/
structure KpiTotals where
  loaded : ℤ
  unloaded : ℤ
deriving DecidableEq, Repr

/-- `hasData = totals.loaded > 0 || totals.unloaded > 0` (KPICards.fetchStats). -/
def kpiHasData (totals : KpiTotals) : Bool :=
  decide (0 < totals.loaded) || decide (0 < totals.unloaded)

/-- The `setStats` updater in `KPICards.fetchStats`: keep the previous stats
when the fetched totals are empty and the previous stats are non-empty,
otherwise install the new stats. -/
def kpiMergeFetch (prev : KpiStats) (totals : KpiTotals) : KpiStats :=
  let newStats : KpiStats :=
    ⟨totals.loaded, totals.unloaded, totals.loaded - totals.unloaded⟩
  if !kpiHasData totals && (decide (0 < prev.loaded) || decide (0 < prev.unloaded)) then
    prev
  else newStats

/-- One platform's entry in a realtime `platforms` payload; absent counts
read as `0` through `p?.total_loaded || …` truthiness. -/
structure PStat where
  total_loaded : ℤ
  total_unloaded : ℤ
deriving DecidableEq, Repr

/-- `const hasCounts = Object.values(platformsPayload).some(p =>
p?.total_loaded || p?.total_unloaded)` (PlatformGrid realtime effect). -/
def gridHasCounts (payload : List (String × PStat)) : Bool :=
  payload.any (fun e => !(e.2.total_loaded = 0) || !(e.2.total_unloaded = 0))

/-- The `setPlatformStats` updater in PlatformGrid's realtime effect:
an empty-count payload does not wipe a non-empty held snapshot. -/
def gridRealtimeMerge (prev payload : List (String × PStat)) :
    List (String × PStat) :=
  if !gridHasCounts payload && decide (0 < prev.length) then prev else payload

/-- `shouldShowZoneCount` (PlatformGrid): show a zone count only when it is
positive and, when a positive platform total is available, at least
`ZONE_DISPLAY_THRESHOLD = 0.25` of it. -/
def shouldShowZoneCount (zoneCount platformTotal : ℚ) : Bool :=
  if zoneCount ≤ 0 then false
  else if platformTotal ≤ 0 then true
  else decide (zoneCount / platformTotal ≥ 25 / 100)

/-- The rendered number for one zone counter:
`{showLoaded ? zoneLoaded : 0}` (PlatformGrid zone cell). -/
def displayedZoneCount (zoneCount platformTotal : ℚ) : ℚ :=
  if shouldShowZoneCount zoneCount platformTotal then zoneCount else 0

/-- The pair of numbers rendered in a zone cell (loaded, unloaded), each
filtered by `shouldShowZoneCount` against its own platform total. -/
def renderZoneCell (zoneLoaded zoneUnloaded platTotalLoaded platTotalUnloaded : ℚ) :
    ℚ × ℚ :=
  (displayedZoneCount zoneLoaded platTotalLoaded,
   displayedZoneCount zoneUnloaded platTotalUnloaded)
theorem lookupKey_nil {α : Type} (k : String) : lookupKey ([] : List (String × α)) k = none := rfl

theorem lookupKey_cons {α : Type} (e : String × α) (t : List (String × α)) (k : String) :
    lookupKey (e :: t) k = if e.1 = k then some e.2 else lookupKey t k := by
  by_cases he : e.1 = k <;> simp [lookupKey, List.find?_cons, he]

theorem setKey_cons {α : Type} (e : String × α) (t : List (String × α))
    (k : String) (v : α) :
    setKey (e :: t) k v =
      if e.1 = k then (k, v) :: t.map (fun x => if x.1 = k then (k, v) else x)
      else e :: setKey t k v := by
  by_cases he : e.1 = k
  · simp [setKey, List.any_cons, he]
  · by_cases ht : t.any (fun x => x.1 = k)
    · simp [setKey, List.any_cons, he, ht]
    · simp [setKey, List.any_cons, he, ht]

theorem lookupKey_map_setFn {α : Type} (t : List (String × α)) (k k' : String)
    (v : α) (h : k' ≠ k) :
    lookupKey (t.map (fun x => if x.1 = k then (k, v) else x)) k' = lookupKey t k' := by
  induction t with
  | nil => rfl
  | cons e t ih =>
    rw [List.map_cons, lookupKey_cons, lookupKey_cons]
    by_cases he : e.1 = k
    · have hk : ¬ (k = k') := fun hh => h hh.symm
      have he' : ¬ (e.1 = k') := fun hh => h ((hh.symm.trans he).symm).symm
      simp only [he, if_true, hk, if_false, he', ih]
    · simp only [he, if_false]
      by_cases he' : e.1 = k'
      · simp only [he', if_true]
      · simp only [he', if_false, ih]

theorem lookupKey_setKey {α : Type} (zs : List (String × α)) (k k' : String) (v : α) :
    lookupKey (setKey zs k v) k' = if k' = k then some v else lookupKey zs k' := by
  induction zs with
  | nil =>
    by_cases h : k' = k
    · simp [setKey, lookupKey_cons, lookupKey_nil, h]
    · have hk : ¬ (k = k') := fun hh => h hh.symm
      simp [setKey, lookupKey_cons, lookupKey_nil, h, hk]
  | cons e t ih =>
    rw [setKey_cons]
    by_cases he : e.1 = k
    · rw [if_pos he, lookupKey_cons, lookupKey_cons]
      by_cases h : k' = k
      · simp [h]
      · have hk : ¬ (k = k') := fun hh => h hh.symm
        have he' : ¬ (e.1 = k') := fun hh => h (hh.symm.trans he)
        simp only [hk, if_false, he', h, lookupKey_map_setFn t k k' v h]
    · rw [if_neg he, lookupKey_cons, lookupKey_cons, ih]
      by_cases he' : e.1 = k'
      · have h : ¬ (k' = k) := fun hh => he (he'.trans hh)
        simp only [he', if_true, h, if_false]
      · simp only [he', if_false]

theorem lookupKey_setKey_self {α : Type} (zs : List (String × α)) (k : String) (v : α) :
    lookupKey (setKey zs k v) k = some v := by
  simp [lookupKey_setKey]

theorem keysOf_setKey {α : Type} (zs : List (String × α)) (k : String) (v : α) :
    keysOf (setKey zs k v) =
      if zs.any (fun e => e.1 = k) then keysOf zs else keysOf zs ++ [k] := by
  by_cases h : zs.any (fun e => e.1 = k)
  · simp only [setKey, h, if_true, keysOf, List.map_map]
    exact List.map_congr_left (fun e _ => by by_cases h1 : e.1 = k <;> simp [h1])
  · simp [setKey, h, keysOf]

theorem mem_keysOf_setKey {α : Type} {zs : List (String × α)} {k k' : String} {v : α} :
    k' ∈ keysOf (setKey zs k v) ↔ k' ∈ keysOf zs ∨ k' = k := by
  rw [keysOf_setKey]
  by_cases h : zs.any (fun e => e.1 = k)
  · simp only [h, if_true]
    constructor
    · exact Or.inl
    · rintro (h1 | rfl)
      · exact h1
      · obtain ⟨e, he, hek⟩ := List.any_eq_true.mp h
        simp only [decide_eq_true_eq] at hek
        exact List.mem_map.mpr ⟨e, he, hek⟩
  · simp [h, List.mem_append, keysOf]

theorem lookupKey_isSome_iff {α : Type} {zs : List (String × α)} {k : String} :
    (lookupKey zs k).isSome = true ↔ k ∈ keysOf zs := by
  simp [lookupKey, List.find?_isSome, keysOf, List.mem_map]

/-- The all-blank zone object every fixed slot `null`, as produced by a load
of an empty payload or by `clearAll`. -/
def blankZones : Zones := FIXED_ZONE_NAMES.map (fun n => (n, none))

/-- A canvas rect whose on-screen size coincides with the canonical
1020×600 resolution, so screen and canonical coordinates agree. -/
def idRect : Rect := ⟨0, 0, 1020, 600⟩

/-- C1: starting from the idle state with no transient points, selecting zone
"A" and clicking (10,10) then (500,500) (at a rect where screen and canonical
coordinates agree) makes the zone set map "A" to the segment
[(10,10),(500,500)] while the transient points still equal those two points;
moreover any click while 2 transient points are held, or while no zone is
selected, leaves the whole editor state (zone set and transient points)
unchanged. -/
theorem two_point_commit :
    (let s3 := handleCanvasClick true (some idRect) 500 500
        (handleCanvasClick true (some idRect) 10 10
          (selectZone true "A"
            { zones := blankZones, currentZone := none, tempPoints := [] }))
     lookupKey s3.zones "A" = some (some (⟨10, 10⟩, ⟨500, 500⟩)) ∧
       s3.tempPoints = [⟨10, 10⟩, ⟨500, 500⟩]) ∧
    (∀ (ce : Bool) (r : Option Rect) (cx cy : ℚ) (st : EditorState),
      2 ≤ st.tempPoints.length → handleCanvasClick ce r cx cy st = st) ∧
    (∀ (ce : Bool) (r : Option Rect) (cx cy : ℚ) (st : EditorState),
      st.currentZone = none → handleCanvasClick ce r cx cy st = st) := by
  refine ⟨?_, ?_, ?_⟩
  · have hx1 : toCanonicalX idRect 10 = 10 := by norm_num [toCanonicalX, idRect]
    have hy1 : toCanonicalY idRect 10 = 10 := by norm_num [toCanonicalY, idRect]
    have hx2 : toCanonicalX idRect 500 = 500 := by norm_num [toCanonicalX, idRect]
    have hy2 : toCanonicalY idRect 500 = 500 := by norm_num [toCanonicalY, idRect]
    have h1 : selectZone true "A"
        { zones := blankZones, currentZone := none, tempPoints := [] } =
        { zones := blankZones, currentZone := some "A", tempPoints := [] } := rfl
    rw [h1]
    simp only [handleCanvasClick, hx1, hy1, hx2, hy2]
    decide
  · intro ce r cx cy st h
    simp [handleCanvasClick, h]
  · intro ce r cx cy st h
    simp [handleCanvasClick, h]

theorem two_point_commit_witness :
    handleCanvasClick true (some idRect) 7 7
        { zones := blankZones, currentZone := some "A",
          tempPoints := [⟨1, 1⟩, ⟨2, 2⟩] } =
      { zones := blankZones, currentZone := some "A",
        tempPoints := [⟨1, 1⟩, ⟨2, 2⟩] } ∧
    handleCanvasClick true (some idRect) 7 7
        { zones := blankZones, currentZone := none, tempPoints := [] } =
      { zones := blankZones, currentZone := none, tempPoints := [] } :=
  ⟨two_point_commit.2.1 true (some idRect) 7 7 _ (by decide),
   two_point_commit.2.2 true (some idRect) 7 7 _ rfl⟩

/-- C3: the remote payload `\x7b"zone1": \x7bp1:[1,1], p2:[2,2]\x7d\x7d`, which has no
exact fixed-name match, normalizes through the two-phase `loadInitialData`
scheme to A = [(1,1),(2,2)] with B and C unset. -/
theorem load_fallback_fill :
    loadZones [("zone1", .obj (some (.arr [1, 1])) (some (.arr [2, 2])))] =
      [("A", some (⟨1, 1⟩, ⟨2, 2⟩)), ("B", none), ("C", none)] := by decide

/-- C4: `serializeZones` emits exactly the fixed-name zones whose slot holds a
defined segment and omits undefined ones entirely; consequently, starting from
A = [(0,0),(1,1)] with B, C undefined, clearing "A" and then saving POSTs the
empty object. -/
theorem save_serializes_defined_zones :
    (∀ (zs : Zones) (z : String) (seg : Seg),
      (z, seg) ∈ serializeZones zs ↔
        z ∈ FIXED_ZONE_NAMES ∧ lookupKey zs z = some (some seg)) ∧
    (handleSaveOp
        (clearZoneOp true true "A"
          { zones := [("A", some (⟨0, 0⟩, ⟨1, 1⟩)), ("B", none), ("C", none)],
            currentZone := none, tempPoints := [] }).1 none).2 = [] := by
  constructor
  · intro zs z seg
    constructor
    · intro hm
      obtain ⟨a, ha, hf⟩ := List.mem_filterMap.mp hm
      cases hl : lookupKey zs a with
      | none => rw [hl] at hf; exact absurd hf (by simp)
      | some o =>
        cases o with
        | none => rw [hl] at hf; exact absurd hf (by simp)
        | some s =>
          rw [hl] at hf
          simp only [Option.some_inj, Prod.mk.injEq] at hf
          obtain ⟨rfl, rfl⟩ := hf
          exact ⟨ha, hl⟩
    · rintro ⟨hz, hl⟩
      exact List.mem_filterMap.mpr ⟨z, hz, by rw [hl]⟩
  · decide

/-- C6 counterexample: clearing zone "A" while "A" is the currently selected
zone and one transient point is held leaves the transient point list
non-empty, contradicting the claim that transient points are cleared when the
selected zone is cleared. -/
theorem clearZone_keeps_tempPoints_cx :
    ((clearZoneOp true true "A"
        { zones := blankZones, currentZone := some "A",
          tempPoints := [⟨5, 5⟩] }).1).tempPoints ≠ [] := by decide

/-- C6 (amended): for every zone name, the per-zone clear sets that zone's
slot to null and immediately POSTs the serialization of the updated zones,
but it leaves the transient point list and the current selection unchanged —
transient points are not cleared even when the cleared zone is the selected
one. -/
theorem clearZone_amended :
    ∀ (st : EditorState) (z : String),
      ((clearZoneOp true true z st).1).zones = setKey st.zones z none ∧
      lookupKey ((clearZoneOp true true z st).1).zones z = some none ∧
      (clearZoneOp true true z st).2 =
        some (serializeZones (setKey st.zones z none)) ∧
      ((clearZoneOp true true z st).1).tempPoints = st.tempPoints ∧
      ((clearZoneOp true true z st).1).currentZone = st.currentZone := by
  intro st z
  exact ⟨rfl, lookupKey_setKey_self st.zones z none, rfl, rfl, rfl⟩

/-- C9: when the user lacks the "cameras" page permission, every canvas click
leaves both the zone set and the transient point list unchanged — the guard
sits in the click handler itself. -/
theorem viewer_click_no_mutation :
    ∀ (user : Option AuthUser),
      hasPagePermission user "cameras" = false →
      ∀ (r : Option Rect) (cx cy : ℚ) (st : EditorState),
        (handleCanvasClick (canEditZones user) r cx cy st).zones = st.zones ∧
        (handleCanvasClick (canEditZones user) r cx cy st).tempPoints =
          st.tempPoints := by
  intro user h r cx cy st
  have hce : canEditZones user = false := h
  simp [handleCanvasClick, hce]

theorem viewer_click_no_mutation_witness :
    (handleCanvasClick (canEditZones (some ⟨.viewer, []⟩)) (some idRect) 7 7
        { zones := blankZones, currentZone := some "A", tempPoints := [] }).zones =
      ({ zones := blankZones, currentZone := some "A",
         tempPoints := [] } : EditorState).zones ∧
    (handleCanvasClick (canEditZones (some ⟨.viewer, []⟩)) (some idRect) 7 7
        { zones := blankZones, currentZone := some "A",
          tempPoints := [] }).tempPoints =
      ({ zones := blankZones, currentZone := some "A",
         tempPoints := [] } : EditorState).tempPoints :=
  viewer_click_no_mutation (some ⟨.viewer, []⟩) (by decide) (some idRect) 7 7 _

/-- C2: in both cited dashboard merge steps (the KPI fetched-totals merge and
the platform grid realtime merge) an incoming snapshot replaces the held one
exactly when the incoming snapshot is non-empty or the held one is empty; in
particular a non-empty held snapshot survives an empty incoming one. -/
theorem dashboard_merge_non_regression :
    (∀ (prev : KpiStats) (totals : KpiTotals),
      kpiMergeFetch prev totals =
        if kpiHasData totals = true ∨ ¬ (0 < prev.loaded ∨ 0 < prev.unloaded) then
          ⟨totals.loaded, totals.unloaded, totals.loaded - totals.unloaded⟩
        else prev) ∧
    (∀ (prev payload : List (String × PStat)),
      gridRealtimeMerge prev payload =
        if gridHasCounts payload = true ∨ prev = [] then payload else prev) ∧
    (∀ (prev : KpiStats) (totals : KpiTotals),
      (0 < prev.loaded ∨ 0 < prev.unloaded) → kpiHasData totals = false →
      kpiMergeFetch prev totals = prev) ∧
    (∀ (prev payload : List (String × PStat)),
      prev ≠ [] → gridHasCounts payload = false →
      gridRealtimeMerge prev payload = prev) := by
  have hkpi : ∀ (prev : KpiStats) (totals : KpiTotals),
      kpiMergeFetch prev totals =
        if kpiHasData totals = true ∨ ¬ (0 < prev.loaded ∨ 0 < prev.unloaded) then
          ⟨totals.loaded, totals.unloaded, totals.loaded - totals.unloaded⟩
        else prev := by
    intro prev totals
    by_cases h : kpiHasData totals = true
    · simp [kpiMergeFetch, h]
    · by_cases hp : 0 < prev.loaded ∨ 0 < prev.unloaded
      · simp [kpiMergeFetch, h, hp]
      · simp [kpiMergeFetch, h, hp]
  have hgrid : ∀ (prev payload : List (String × PStat)),
      gridRealtimeMerge prev payload =
        if gridHasCounts payload = true ∨ prev = [] then payload else prev := by
    intro prev payload
    by_cases h : gridHasCounts payload = true
    · simp [gridRealtimeMerge, h]
    · by_cases hp : prev = []
      · simp [gridRealtimeMerge, h, hp]
      · have : 0 < prev.length := List.length_pos.mpr hp
        simp [gridRealtimeMerge, h, hp, this]
  refine ⟨hkpi, hgrid, ?_, ?_⟩
  · intro prev totals hp h
    rw [hkpi prev totals, if_neg]
    simp [h, hp]
  · intro prev payload hp h
    rw [hgrid prev payload, if_neg]
    simp [h, hp]

theorem dashboard_merge_non_regression_witness :
    kpiMergeFetch ⟨5, 3, 2⟩ ⟨0, 0⟩ = ⟨5, 3, 2⟩ ∧
    gridRealtimeMerge [("platform1", ⟨4, 2⟩)] [("platform1", ⟨0, 0⟩)] =
      [("platform1", ⟨4, 2⟩)] :=
  ⟨dashboard_merge_non_regression.2.2.1 ⟨5, 3, 2⟩ ⟨0, 0⟩ (Or.inl (by norm_num))
      (by decide),
   dashboard_merge_non_regression.2.2.2 _ _ (by decide) (by decide)⟩

/-- C7: for every canonical point within 0..1020 x 0..600 and every canvas
rect with positive width and height, projecting to screen coordinates by the
inverse linear map and converting back through the canonical conversion lands
within one unit of the original point in each coordinate. -/
theorem coordinate_round_trip :
    ∀ (x y : ℤ) (r : Rect),
      0 < r.width → 0 < r.height →
      0 ≤ x → x ≤ 1020 → 0 ≤ y → y ≤ 600 →
      |toCanonicalX r (toScreenX r x) - x| ≤ 1 ∧
      |toCanonicalY r (toScreenY r y) - y| ≤ 1 := by
  intro x y r hw hh _ _ _ _
  have hx : toCanonicalX r (toScreenX r x) = x := by
    unfold toCanonicalX toScreenX
    have h1 : (r.left + (x : ℚ) / 1020 * r.width - r.left) / r.width * 1020 =
        ((x : ℤ) : ℚ) := by
      field_simp
      ring
    rw [h1, round_intCast]
  have hy : toCanonicalY r (toScreenY r y) = y := by
    unfold toCanonicalY toScreenY
    have h1 : (r.top + (y : ℚ) / 600 * r.height - r.top) / r.height * 600 =
        ((y : ℤ) : ℚ) := by
      field_simp
      ring
    rw [h1, round_intCast]
  constructor <;> simp [hx, hy]

theorem coordinate_round_trip_witness :
    |toCanonicalX idRect (toScreenX idRect 10) - 10| ≤ 1 ∧
    |toCanonicalY idRect (toScreenY idRect 20) - 20| ≤ 1 :=
  coordinate_round_trip 10 20 idRect (by norm_num [idRect]) (by norm_num [idRect])
    (by decide) (by decide) (by decide) (by decide)

/-- C10: a zone's loaded (resp. unloaded) rendered count is 0 whenever the
zone count is positive yet below a quarter of the positive platform total;
the true count is rendered when it is at least that fraction or when the
platform total is zero or negative. -/
theorem zone_count_display_threshold :
    (∀ (zl zu tl tu : ℚ), renderZoneCell zl zu tl tu =
      (displayedZoneCount zl tl, displayedZoneCount zu tu)) ∧
    ∀ (c t : ℚ),
      (0 < c → 0 < t → c / t < 25 / 100 → displayedZoneCount c t = 0) ∧
      (0 < c → 0 < t → 25 / 100 ≤ c / t → displayedZoneCount c t = c) ∧
      (0 < c → t ≤ 0 → displayedZoneCount c t = c) := by
  refine ⟨fun zl zu tl tu => rfl, ?_⟩
  intro c t
  refine ⟨?_, ?_, ?_⟩
  · intro hc ht hlt
    simp [displayedZoneCount, shouldShowZoneCount, not_le.mpr hc, not_le.mpr ht,
      not_le.mpr hlt]
  · intro hc ht hge
    simp [displayedZoneCount, shouldShowZoneCount, not_le.mpr hc, not_le.mpr ht, hge]
  · intro hc ht
    simp [displayedZoneCount, shouldShowZoneCount, not_le.mpr hc, ht]

theorem zone_count_display_threshold_witness :
    displayedZoneCount 1 10 = 0 ∧ displayedZoneCount 3 10 = 3 ∧
    displayedZoneCount 5 0 = 5 :=
  ⟨(zone_count_display_threshold.2 1 10).1 (by norm_num) (by norm_num) (by norm_num),
   (zone_count_display_threshold.2 3 10).2.1 (by norm_num) (by norm_num) (by norm_num),
   (zone_count_display_threshold.2 5 0).2.2 (by norm_num) (by norm_num)⟩

theorem stepOp_tempPoints_le (st : EditorState) (op : EditorOp)
    (h : st.tempPoints.length ≤ 2) : (stepOp st op).tempPoints.length ≤ 2 := by
  cases op with
  | select ce z =>
    by_cases hce : ce
    · simp [stepOp, selectZone, hce]
    · simp [stepOp, selectZone, hce, h]
  | click ce r cx cy =>
    simp only [stepOp, handleCanvasClick]
    split
    · exact h
    · next hguard =>
      have hlt : st.tempPoints.length < 2 := by
        rcases Nat.lt_or_ge st.tempPoints.length 2 with h' | h'
        · exact h'
        · exact absurd (by simp [h']) hguard
      split
      · exact h
      · split
        · simp only [List.length_append, List.length_cons, List.length_nil]
          omega
        · simp only [List.length_append, List.length_cons, List.length_nil]
          omega
  | clearZone ce cf z =>
    simp only [stepOp, clearZoneOp]
    split
    · exact h
    · split
      · exact h
      · exact h
  | clearAll cf =>
    simp only [stepOp, clearAllOp]
    split
    · exact h
    · simp
  | save resp =>
    cases resp <;> simp [stepOp, handleSaveOp, h]
  | load resp =>
    cases resp <;> simp [stepOp, loadResult, h]

/-- C8: in every state reachable from the initial editor state by any
sequence of editor operations, the transient point list holds at most two
points; selecting a zone and the confirmed clear-all both reset the list to
empty. -/
theorem tempPoints_at_most_two :
    (∀ (ops : List EditorOp), (runOps initialEditorState ops).tempPoints.length ≤ 2) ∧
    (∀ (z : String) (st : EditorState), (selectZone true z st).tempPoints = []) ∧
    (∀ (st : EditorState), ((clearAllOp true st).1).tempPoints = []) := by
  refine ⟨?_, fun z st => rfl, fun st => rfl⟩
  have main : ∀ (ops : List EditorOp) (st : EditorState),
      st.tempPoints.length ≤ 2 → (runOps st ops).tempPoints.length ≤ 2 := by
    intro ops
    induction ops with
    | nil => intro st h; exact h
    | cons op t ih => intro st h; exact ih _ (stepOp_tempPoints_le st op h)
  intro ops
  exact main ops initialEditorState (by decide)

theorem loadPhase1_keys_sub (payload : RPayload) :
    ∀ z, z ∈ keysOf (loadPhase1 payload) → z ∈ FIXED_ZONE_NAMES := by
  have haux : ∀ (names : List String) (acc : Zones) (z : String),
      z ∈ keysOf (names.foldl (fun acc name =>
        match lookupKey payload name with
        | some v => if v.truthy then setKey acc name (decodeRZone v) else acc
        | none => acc) acc) → z ∈ keysOf acc ∨ z ∈ names := by
    intro names
    induction names with
    | nil => intro acc z hz; exact Or.inl hz
    | cons n t ih =>
      intro acc z hz
      rw [List.foldl_cons] at hz
      rcases ih _ z hz with hcase | hcase
      · cases hl : lookupKey payload n with
        | none => simp only [hl] at hcase; exact Or.inl hcase
        | some v =>
          simp only [hl] at hcase
          by_cases ht : v.truthy
          · rw [if_pos ht] at hcase
            rcases mem_keysOf_setKey.mp hcase with h1 | rfl
            · exact Or.inl h1
            · exact Or.inr (List.mem_cons_self _ _)
          · rw [if_neg ht] at hcase; exact Or.inl hcase
      · exact Or.inr (List.mem_cons_of_mem n hcase)
  intro z hz
  rcases haux FIXED_ZONE_NAMES [] z hz with h | h
  · simp [keysOf] at h
  · exact h

theorem loadPhase2Step_keys_sub (s : Zones × ℕ) (e : String × RZone) (z : String)
    (hz : z ∈ keysOf (loadPhase2Step s e).1) :
    z ∈ keysOf s.1 ∨ z ∈ FIXED_ZONE_NAMES := by
  unfold loadPhase2Step at hz
  by_cases hf : e.1 ∈ FIXED_ZONE_NAMES
  · rw [if_pos hf] at hz; exact Or.inl hz
  · rw [if_neg hf] at hz
    by_cases hlt : advanceFill s.1 s.2 < FIXED_ZONE_NAMES.length
    · rw [dif_pos hlt] at hz
      rcases mem_keysOf_setKey.mp hz with h1 | rfl
      · exact Or.inl h1
      · exact Or.inr (List.get_mem _ _ hlt)
    · rw [dif_neg hlt] at hz; exact Or.inl hz

theorem loadPhase2_keys_sub (payload : RPayload) (acc : Zones) (z : String)
    (hz : z ∈ keysOf (loadPhase2 payload acc)) :
    z ∈ keysOf acc ∨ z ∈ FIXED_ZONE_NAMES := by
  unfold loadPhase2 at hz
  have haux : ∀ (entries : List (String × RZone)) (s : Zones × ℕ),
      z ∈ keysOf (entries.foldl loadPhase2Step s).1 →
      z ∈ keysOf s.1 ∨ z ∈ FIXED_ZONE_NAMES := by
    intro entries
    induction entries with
    | nil => intro s hs; exact Or.inl hs
    | cons e t ih =>
      intro s hs
      rw [List.foldl_cons] at hs
      rcases ih _ hs with h1 | h1
      · exact loadPhase2Step_keys_sub s e z h1
      · exact Or.inr h1
  exact haux payload (acc, 0) hz

theorem loadPhase3_keys_mono :
    ∀ (names : List String) (acc : Zones) (z : String), z ∈ keysOf acc →
      z ∈ keysOf (names.foldl (fun a n =>
        if (lookupKey a n).isSome then a else setKey a n none) acc) := by
  intro names
  induction names with
  | nil => intro acc z hz; exact hz
  | cons n t ih =>
    intro acc z hz
    rw [List.foldl_cons]
    apply ih
    by_cases hs : (lookupKey acc n).isSome
    · rw [if_pos hs]; exact hz
    · rw [if_neg hs]; exact mem_keysOf_setKey.mpr (Or.inl hz)

theorem loadPhase3_keys_ensure :
    ∀ (names : List String) (acc : Zones) (z : String), z ∈ names →
      z ∈ keysOf (names.foldl (fun a n =>
        if (lookupKey a n).isSome then a else setKey a n none) acc) := by
  intro names
  induction names with
  | nil => intro acc z hz; exact absurd hz (List.not_mem_nil z)
  | cons n t ih =>
    intro acc z hz
    rw [List.foldl_cons]
    rcases List.mem_cons.mp hz with rfl | hz'
    · apply loadPhase3_keys_mono
      by_cases hs : (lookupKey acc z).isSome
      · rw [if_pos hs]; exact lookupKey_isSome_iff.mp hs
      · rw [if_neg hs]; exact mem_keysOf_setKey.mpr (Or.inr rfl)
    · exact ih _ z hz'

theorem loadPhase3_keys_sub :
    ∀ (names : List String) (acc : Zones) (z : String),
      z ∈ keysOf (names.foldl (fun a n =>
        if (lookupKey a n).isSome then a else setKey a n none) acc) →
      z ∈ keysOf acc ∨ z ∈ names := by
  intro names
  induction names with
  | nil => intro acc z hz; exact Or.inl hz
  | cons n t ih =>
    intro acc z hz
    rw [List.foldl_cons] at hz
    rcases ih _ z hz with h1 | h1
    · by_cases hs : (lookupKey acc n).isSome
      · rw [if_pos hs] at h1; exact Or.inl h1
      · rw [if_neg hs] at h1
        rcases mem_keysOf_setKey.mp h1 with h2 | rfl
        · exact Or.inl h2
        · exact Or.inr (List.mem_cons_self _ _)
    · exact Or.inr (List.mem_cons_of_mem n h1)

theorem loadPhase3_keys_iff (acc : Zones) (z : String) :
    z ∈ keysOf (loadPhase3 acc) ↔ z ∈ keysOf acc ∨ z ∈ FIXED_ZONE_NAMES := by
  constructor
  · exact loadPhase3_keys_sub FIXED_ZONE_NAMES acc z
  · rintro (h | h)
    · exact loadPhase3_keys_mono FIXED_ZONE_NAMES acc z h
    · exact loadPhase3_keys_ensure FIXED_ZONE_NAMES acc z h

/-- C5 (amended): after every successful load, the resulting zone object has
an entry for exactly the fixed zone names A, B, C and no other keys; a load
that fails with a network error leaves the zone object unchanged (so the
initial empty object, in which every zone reads as undefined, persists). -/
theorem load_fixed_slot_keys :
    (∀ (payload : RPayload) (st : EditorState) (z : String),
      z ∈ keysOf ((loadResult st (some payload)).zones) ↔ z ∈ FIXED_ZONE_NAMES) ∧
    (∀ (st : EditorState), loadResult st none = st) := by
  refine ⟨?_, fun st => rfl⟩
  intro payload st z
  constructor
  · intro hz
    have hz' : z ∈ keysOf (loadZones payload) := hz
    unfold loadZones at hz'
    rcases (loadPhase3_keys_iff _ z).mp hz' with h1 | h1
    · rcases loadPhase2_keys_sub payload _ z h1 with h2 | h2
      · exact loadPhase1_keys_sub payload z h2
      · exact h2
    · exact h1
  · intro hz
    exact (loadPhase3_keys_iff _ z).mpr (Or.inr hz)

/-- C5 counterexample: a load that fails with a network error leaves the
initial zone object with no keys at all, so it does not contain an entry for
the fixed name "A", contradicting the claim that every load (including a
failing one) yields entries for exactly A, B, C. -/
theorem load_failure_leaves_no_entries_cx :
    keysOf ((loadResult initialEditorState none).zones) = [] ∧
    ¬ "A" ∈ keysOf ((loadResult initialEditorState none).zones) ∧
    "A" ∈ FIXED_ZONE_NAMES := by
  exact ⟨rfl, by decide, by decide⟩

/-- C4 witness: a concrete defined zone appears in the serialization. -/
theorem save_serializes_defined_zones_witness :
    ("A", ((⟨0, 0⟩, ⟨1, 1⟩) : Seg)) ∈
      serializeZones [("A", some (⟨0, 0⟩, ⟨1, 1⟩)), ("B", none), ("C", none)] :=
  (save_serializes_defined_zones.1 _ "A" _).mpr ⟨by decide, by decide⟩

/-- C5 witness: loading an empty payload yields an entry for "A", and a failed
load is the identity on the state. -/
theorem load_fixed_slot_keys_witness :
    ("A" ∈ keysOf ((loadResult initialEditorState (some [])).zones)) ∧
    loadResult initialEditorState none = initialEditorState :=
  ⟨(load_fixed_slot_keys.1 [] initialEditorState "A").mpr (by decide),
   load_fixed_slot_keys.2 initialEditorState⟩

/-- C6 witness: a concrete per-zone clear stores null for that zone. -/
theorem clearZone_amended_witness :
    lookupKey ((clearZoneOp true true "B" initialEditorState).1).zones "B" =
      some none :=
  (clearZone_amended initialEditorState "B").2.1

/-- C8 witness: a concrete operation sequence keeps at most two transient
points. -/
theorem tempPoints_at_most_two_witness :
    (runOps initialEditorState
      [.select true "A", .click true (some idRect) 3 3]).tempPoints.length ≤ 2 :=
  tempPoints_at_most_two.1 _
